import Mathlib

set_option maxRecDepth 100000

/-!
Verification of the AI_Bookstore query-processing subsystem
(`src/query/intent_classifier.py`, `entity_extractor.py`, `processor.py`,
`router.py`, `retriever.py`).

The Python code is shallowly embedded: queries are `String`s (handled as
`List Char`), Python floats are modelled as `ℚ` (all numeric literals the
code compares — multiples of 0.1 and small decimal amounts — are compared
identically in IEEE doubles and in `ℚ`), Python `re.search` on the fixed
pattern set is implemented by a Brzozowski-derivative matcher for boolean
pattern tests and by direct leftmost-match scanners for the few patterns
whose capture groups the code uses, and raised exceptions are modelled
with `Except`.
-/

/-! ### Basic string machinery (Python `str` helpers) -/

/-- Python `\s` whitespace class (the characters `str.strip`/`str.split`
and `re` treat as whitespace in ASCII text). -/
def isPySpace (c : Char) : Bool :=
  c == ' ' || c == '\t' || c == '\n' || c == '\r' || c == '\x0B' || c == '\x0C'

/-- Python `str.lower` on ASCII text. -/
def py_lower (s : List Char) : List Char := s.map Char.toLower

/-- Python `str.strip`. -/
def py_strip (s : List Char) : List Char :=
  ((s.dropWhile isPySpace).reverse.dropWhile isPySpace).reverse

/-- Boolean list-prefix test. -/
def isPrefixB : List Char → List Char → Bool
  | [], _ => true
  | _ :: _, [] => false
  | x :: xs, y :: ys => x == y && isPrefixB xs ys

/-- Boolean substring test: Python `needle in haystack`. -/
def isInfixB (n : List Char) : List Char → Bool
  | [] => n.isEmpty
  | c :: t => isPrefixB n (c :: t) || isInfixB n t

/-- Embeds `needle in haystack` for a string-literal needle. -/
def hasSub (hay : List Char) (needle : String) : Bool :=
  isInfixB needle.toList hay

/-! ### A small regex engine (Brzozowski derivatives)

Used for the classifier's boolean `re.search(pattern, query)` tests; each
classifier pattern below is a direct transcription of the Python regex. -/

inductive RE where
  | emp
  | eps
  | chr (c : Char)
  | cls (p : Char → Bool)
  | alt (a b : RE)
  | cat (a b : RE)
  | star (a : RE)

def RE.nullable : RE → Bool
  | .emp => false
  | .eps => true
  | .chr _ => false
  | .cls _ => false
  | .alt a b => a.nullable || b.nullable
  | .cat a b => a.nullable && b.nullable
  | .star _ => true

/-- Smart `alt` (prunes the empty language, keeping derivatives small). -/
def altS : RE → RE → RE
  | .emp, b => b
  | a, .emp => a
  | a, b => .alt a b

/-- Smart `cat`. -/
def catS : RE → RE → RE
  | .emp, _ => .emp
  | _, .emp => .emp
  | .eps, b => b
  | a, .eps => a
  | a, b => .cat a b

def RE.deriv : RE → Char → RE
  | .emp, _ => .emp
  | .eps, _ => .emp
  | .chr c, x => if x == c then .eps else .emp
  | .cls p, x => if p x then .eps else .emp
  | .alt a b, x => altS (a.deriv x) (b.deriv x)
  | .cat a b, x =>
    if a.nullable then altS (catS (a.deriv x) b) (b.deriv x)
    else catS (a.deriv x) b
  | .star a, x => catS (a.deriv x) (.star a)

/-- Whole-string match. -/
def reFull : RE → List Char → Bool
  | r, [] => r.nullable
  | r, c :: cs => reFull (r.deriv c) cs

def anyChar : RE := .star (.cls fun _ => true)

/-- Python `re.search(r, s) is not None`: some substring of `s` matches `r`. -/
def reSearch (r : RE) (s : List Char) : Bool :=
  reFull (catS anyChar (catS r anyChar)) s

def lit (s : String) : RE :=
  s.toList.foldr (fun c r => catS (.chr c) r) .eps

def altL : List RE → RE
  | [] => .emp
  | r :: rt => rt.foldl (fun a b => RE.alt a b) r

def plusR (r : RE) : RE := .cat r (.star r)

/-- Embeds `\s+` -/
def wsp : RE := plusR (.cls isPySpace)

/-- Embeds `\d` -/
def digC : RE := .cls Char.isDigit

/-- Embeds `\d+` -/
def digits1 : RE := plusR digC

def optR (r : RE) : RE := .alt r .eps

/-! ### Intent classifier (`IntentClassifier`) -/

inductive QueryIntent where
  | search
  | recommendation
  | comparison
  | analytics
  | filter
  | information
  | unknown
deriving DecidableEq

/-- Keywords of the SEARCH intent (`intent_patterns`). -/
def kw_search : List String := ["find", "search", "looking for", "show me", "get", "want", "need"]

def kw_recommendation : List String := ["recommend", "suggest", "similar", "like", "based on"]

def kw_comparison : List String := ["compare", "cheaper", "better", "versus", "vs", "difference", "which"]

def kw_analytics : List String := ["most popular", "average", "statistics", "how many", "total", "count"]

def kw_filter : List String := ["under", "over", "between", "more than", "less than", "only"]

def kw_information : List String := ["tell me about", "information", "details", "describe", "what is"]

/-- Embeds `(find|search|looking for|show me|get me)\s+(books?|novels?)` etc. -/
def pat_search : List RE := [
  .cat (altL [lit "find", lit "search", lit "looking for", lit "show me", lit "get me"])
    (.cat wsp (altL [.cat (lit "book") (optR (.chr 's')), .cat (lit "novel") (optR (.chr 's'))])),
  .cat (altL [lit "want", lit "need"])
    (.cat wsp (.cat (altL [lit "a", lit "an", lit "some"]) (.cat wsp (altL [lit "book", lit "novel"])))),
  .cat (.cat (lit "book") (optR (.chr 's'))) (.cat wsp (altL [lit "about", lit "on", lit "related to"]))]

/-- Embeds `(recommend|suggest)\s+(books?|something)`, `(similar|like)\s+`, `based on`,
`what should I read` (the capital `I` can never match the lowercased query),
`good books?\s+(for|about)`. -/
def pat_recommendation : List RE := [
  .cat (altL [lit "recommend", lit "suggest"])
    (.cat wsp (altL [.cat (lit "book") (optR (.chr 's')), lit "something"])),
  .cat (altL [lit "similar", lit "like"]) wsp,
  lit "based on",
  lit "what should I read",
  .cat (lit "good book") (.cat (optR (.chr 's')) (.cat wsp (altL [lit "for", lit "about"])))]

def pat_comparison : List RE := [
  .cat (altL [lit "compare", lit "comparison"]) wsp,
  .cat (altL [lit "cheaper", lit "better", lit "best"]) (.cat wsp (altL [lit "store", lit "price"])),
  .cat (altL [lit "which", lit "what"])
    (.cat wsp (.cat (altL [lit "store", lit "bookstore"]) (.cat wsp (altL [lit "is", lit "has"])))),
  .cat (altL [lit "versus", .cat (lit "vs") (optR (.chr '.'))]) wsp,
  lit "difference between"]

def pat_analytics : List RE := [
  .cat (altL [lit "most", lit "least"]) (.cat wsp (altL [lit "popular", lit "expensive", lit "rated"])),
  .cat (altL [lit "average", lit "mean"]) (.cat wsp (altL [lit "price", lit "rating"])),
  altL [lit "how many", lit "total", lit "count"],
  .cat (lit "statistics") (.cat wsp (altL [lit "about", lit "on", lit "for"])),
  .cat (altL [lit "top", lit "best"]) (.cat wsp digits1)]

def pat_filter : List RE := [
  .cat (altL [lit "under", lit "below", lit "less than"]) (.cat wsp (.cat (optR (.chr '$')) digits1)),
  .cat (altL [lit "over", lit "above", lit "more than"]) (.cat wsp (.cat (optR (.chr '$')) digits1)),
  .cat (lit "between") (.cat wsp (.cat (optR (.chr '$'))
    (.cat digits1 (.cat wsp (.cat (lit "and") (.cat wsp (.cat (optR (.chr '$')) digits1))))))),
  .cat (altL [lit "only", lit "just"]) (.cat wsp (altL [lit "available", lit "in stock"])),
  .cat (lit "rated") (.cat wsp (.cat (altL [lit "above", lit "below", lit "over"]) (.cat wsp digC)))]

def pat_information : List RE := [
  lit "tell me about",
  .cat (altL [lit "information", lit "details"]) (.cat wsp (altL [lit "about", lit "on"])),
  altL [lit "describe", lit "explain"],
  .cat (lit "what is") wsp]

/-- One intent's score: `keyword_matches * 0.3 + pattern_matches * 0.5`,
capped by `min(score, 1.0)`. -/
def score_for (ql : List Char) (kws : List String) (pats : List RE) : ℚ :=
  min ((((kws.filter (fun k => hasSub ql k)).length : ℚ) * (3 / 10)) +
       (((pats.filter (fun p => reSearch p ql)).length : ℚ) * (1 / 2))) 1

/-- Embeds `intent_scores` in enum-declaration order (dict-iteration order of
`{intent: 0.0 for intent in QueryIntent}`; `UNKNOWN` keeps score `0.0`). -/
def intent_scores (ql : List Char) : List (QueryIntent × ℚ) := [
  (.search, score_for ql kw_search pat_search),
  (.recommendation, score_for ql kw_recommendation pat_recommendation),
  (.comparison, score_for ql kw_comparison pat_comparison),
  (.analytics, score_for ql kw_analytics pat_analytics),
  (.filter, score_for ql kw_filter pat_filter),
  (.information, score_for ql kw_information pat_information),
  (.unknown, 0)]

/-- Python `max(items, key=score)`: first maximal element in iteration order. -/
def best_intent : List (QueryIntent × ℚ) → QueryIntent × ℚ
  | [] => (.unknown, 0)
  | x :: xs => xs.foldl (fun a p => if a.2 < p.2 then p else a) x

def classify_best (q : String) : QueryIntent × ℚ :=
  best_intent (intent_scores (py_strip (py_lower q.toList)))

/-- Embeds `best_intent[1]`, the maximum per-intent score of the query. -/
def max_intent_score (q : String) : ℚ := (classify_best q).2

/-- Embeds `IntentClassifier.classify`. -/
def classify (q : String) : QueryIntent × ℚ :=
  if max_intent_score q < 3 / 10 then (QueryIntent.unknown, max_intent_score q)
  else classify_best q

/-! ### Entity extractor (`EntityExtractor`)

The extraction regexes whose capture groups are used are implemented as
direct leftmost-match scanners with Python `re.search` semantics: try the
pattern at every start position from the left, with alternatives in source
order and greedy quantifiers. -/

/-- A `{'min': …, 'max': …}` dict with optional keys (price/rating range). -/
structure RangeQ where
  min : Option ℚ
  max : Option ℚ
deriving DecidableEq

structure Entities where
  genres : List String
  price_range : Option RangeQ
  rating_range : Option RangeQ
  authors : List String
  stores : List String
  format : Option String
  availability : Option Bool
  sort_by : Option String
  limit : Option Nat
deriving DecidableEq

/-- Maximal leading digit run (`\d+`, greedy) and the rest. -/
def takeDigits : List Char → List Char × List Char
  | [] => ([], [])
  | c :: t =>
    if c.isDigit then
      let p := takeDigits t
      (c :: p.1, p.2)
    else ([], c :: t)

def digitsVal (ds : List Char) : Nat :=
  ds.foldl (fun a c => 10 * a + (c.toNat - 48)) 0

/-- Embeds `\d+(?:\.\d{2})?` with `float(...)` of the captured text: the maximal
digit run, plus two decimals when the run is followed by `.dd`. -/
def scanNum (s : List Char) : Option (ℚ × List Char) :=
  match takeDigits s with
  | ([], _) => none
  | (ds, rest) =>
    match rest with
    | '.' :: d1 :: d2 :: r2 =>
      if d1.isDigit && d2.isDigit then
        some ((digitsVal ds : ℚ) + (digitsVal [d1, d2] : ℚ) / 100, r2)
      else some ((digitsVal ds : ℚ), rest)
    | _ => some ((digitsVal ds : ℚ), rest)

/-- Embeds `\s+`: require one whitespace character, then consume the rest greedily. -/
def skipWs1 : List Char → Option (List Char)
  | c :: t => if isPySpace c then some (t.dropWhile isPySpace) else none
  | [] => none

/-- Generic `re.search` driver: try `f` at every start position, leftmost
match wins (also tries the empty suffix, as Python does). -/
def searchO {α : Type} (f : List Char → Option α) : List Char → Option α
  | [] => f []
  | c :: t =>
    match f (c :: t) with
    | some v => some v
    | none => searchO f t

/-- After one of the keywords: `\s+\$?(\d+(?:\.\d{2})?)`, group 2 as `float`. -/
def numAfterKey (s : List Char) : Option ℚ :=
  match skipWs1 s with
  | none => none
  | some r =>
    let r2 := match r with
      | '$' :: t => t
      | _ => r
    match scanNum r2 with
    | some (v, _) => some v
    | none => none

/-- Alternation `(k₁|k₂|…)` at a fixed position, source order, with
backtracking into the rest of the pattern. -/
def tryKeys (keys : List String) (s : List Char) : Option ℚ :=
  match keys with
  | [] => none
  | k :: kt =>
    match (if isPrefixB k.toList s then numAfterKey (s.drop k.length) else none) with
    | some v => some v
    | none => tryKeys kt s

/-- Embeds `re.search(r'(k₁|k₂|…)\s+\$?(\d+(?:\.\d{2})?)', q)`, group 2. -/
def searchKeyNum (keys : List String) : List Char → Option ℚ :=
  searchO (tryKeys keys)

/-- Embeds `between\s+\$?(\d+(?:\.\d{2})?)\s+and\s+\$?(\d+(?:\.\d{2})?)` at one position. -/
def betweenAt (s : List Char) : Option (ℚ × ℚ) :=
  if isPrefixB "between".toList s then
    match skipWs1 (s.drop 7) with
    | none => none
    | some r0 =>
      let r1 := match r0 with
        | '$' :: t => t
        | _ => r0
      match scanNum r1 with
      | none => none
      | some (v1, r2) =>
        match skipWs1 r2 with
        | none => none
        | some r3 =>
          if isPrefixB "and".toList r3 then
            match skipWs1 (r3.drop 3) with
            | none => none
            | some r4 =>
              let r5 := match r4 with
                | '$' :: t => t
                | _ => r4
              match scanNum r5 with
              | none => none
              | some (v2, _) => some (v1, v2)
          else none
  else none

/-- Embeds `_extract_price_range`: `under/below/less than` sets `max`,
`over/above/more than` sets `min`, a `between … and …` match overwrites
both; `None` when no key was set. -/
def extract_price_range (q : List Char) : Option RangeQ :=
  let u := searchKeyNum ["under", "below", "less than"] q
  let o := searchKeyNum ["over", "above", "more than"] q
  let b := searchO betweenAt q
  let mn := match b with
    | some p => some p.1
    | none => o
  let mx := match b with
    | some p => some p.2
    | none => u
  if mn.isNone && mx.isNone then none else some ⟨mn, mx⟩

/-- Embeds `(\d(?:\.\d)?)`: one digit, optionally `.d`. -/
def ratingNumAt : List Char → Option ℚ
  | c :: t =>
    if c.isDigit then
      match t with
      | '.' :: d :: _ =>
        if d.isDigit then some ((c.toNat - 48 : Nat) + ((d.toNat - 48 : Nat) : ℚ) / 10)
        else some ((c.toNat - 48 : Nat) : ℚ)
      | _ => some ((c.toNat - 48 : Nat) : ℚ)
    else none
  | [] => none

/-- Embeds `(above|over)\s+(\d(?:\.\d)?)` (resp. `below|under`) after `rated?\s+`. -/
def ratedWords (words : List String) (r1 : List Char) : Option ℚ :=
  match words with
  | [] => none
  | w :: wt =>
    match (if isPrefixB w.toList r1 then
             match skipWs1 (r1.drop w.length) with
             | some r2 => ratingNumAt r2
             | none => none
           else none) with
    | some v => some v
    | none => ratedWords wt r1

def ratedAfter (words : List String) (x : List Char) : Option ℚ :=
  match skipWs1 x with
  | some r1 => ratedWords words r1
  | none => none

/-- Embeds `rated?\s+(above|over)\s+(\d(?:\.\d)?)` at one position (`d?` greedy,
with backtracking). -/
def ratedAt (words : List String) (s : List Char) : Option ℚ :=
  if isPrefixB "rate".toList s then
    match s.drop 4 with
    | 'd' :: r =>
      (match ratedAfter words r with
       | some v => some v
       | none => ratedAfter words ('d' :: r))
    | rest => ratedAfter words rest
  else none

def searchRated (words : List String) : List Char → Option ℚ :=
  searchO (ratedAt words)

/-- Embeds `_extract_rating_range`: `rated above/over` → `min`, `rated
below/under` → `max`, then `highly rated`/`high rating` overwrites
`min := 4.0`. -/
def extract_rating_range (q : List Char) : Option RangeQ :=
  let ab := searchRated ["above", "over"] q
  let bl := searchRated ["below", "under"] q
  let mn := if hasSub q "highly rated" || hasSub q "high rating" then some (4 : ℚ) else ab
  if mn.isNone && bl.isNone then none else some ⟨mn, bl⟩

/-- Embeds `(w₁|w₂)\s+([AB]|a|b)` at one position: the captured letter. -/
def storeLetterAt (words : List String) (s : List Char) : Option Char :=
  match words with
  | [] => none
  | w :: wt =>
    match (if isPrefixB w.toList s then
             match skipWs1 (s.drop w.length) with
             | some r =>
               match r with
               | c :: _ => if c == 'A' || c == 'B' || c == 'a' || c == 'b' then some c else none
               | [] => none
             | none => none
           else none) with
    | some v => some v
    | none => storeLetterAt wt s

def searchStoreLetter (words : List String) : List Char → Option Char :=
  searchO (storeLetterAt words)

/-- Embeds `_extract_stores`: one `re.search` per pattern
(`(store|bookstore)\s+([AB]|a|b)` and `(bookstore|shop)\s+([AB]|a|b)`),
each match appending `store_<letter.lower()>`; `both stores`/`all stores`
overrides with the fixed two-store list. -/
def extract_stores (q : List Char) : List String :=
  let s1 := searchStoreLetter ["store", "bookstore"] q
  let s2 := searchStoreLetter ["bookstore", "shop"] q
  let stores := (s1.toList ++ s2.toList).map
    (fun c => if c == 'A' || c == 'a' then "store_a" else "store_b")
  if hasSub q "both stores" || hasSub q "all stores" then ["store_a", "store_b"] else stores

/-- Embeds `genre_keywords`, in source (dict-insertion) order. -/
def genre_keywords : List (String × List String) := [
  ("science fiction", ["sci-fi", "scifi", "science fiction", "sf", "space", "futuristic"]),
  ("fantasy", ["fantasy", "magic", "wizard", "dragon", "medieval", "quest"]),
  ("mystery", ["mystery", "detective", "crime", "thriller", "investigation", "murder"]),
  ("romance", ["romance", "love", "romantic", "relationship"]),
  ("horror", ["horror", "scary", "terror", "haunted", "ghost"]),
  ("biography", ["biography", "autobiography", "memoir", "life story"]),
  ("history", ["history", "historical", "war", "ancient"]),
  ("self-help", ["self-help", "self help", "personal development", "motivation"]),
  ("children", ["children", "kids", "young readers", "picture book"]),
  ("young adult", ["ya", "young adult", "teen", "teenage"])]

/-- Embeds `_extract_genres`: a genre is found when any of its keywords is a
substring (the inner `break` appends each genre at most once, so
`found_genres` is duplicate-free and Python's `list(set(found_genres))`
only reorders; no claim depends on the order of a multi-genre list). -/
def extract_genres (q : List Char) : List String :=
  (genre_keywords.filter (fun gk => gk.2.any (fun kw => hasSub q kw))).map Prod.fst

/-- Embeds `format_keywords` with the `format_type.capitalize()` result values. -/
def format_keywords : List (String × List String) := [
  ("Ebook", ["ebook", "e-book", "digital", "kindle"]),
  ("Audiobook", ["audiobook", "audio book", "audible"]),
  ("Hardcover", ["hardcover", "hardback"]),
  ("Paperback", ["paperback", "softcover"])]

/-- Embeds `_extract_format`: first matching format in dict order. -/
def extract_format (q : List Char) : Option String :=
  (format_keywords.find? (fun fk => fk.2.any (fun kw => hasSub q kw))).map Prod.fst

/-- Embeds `_extract_availability`: affirmative phrases first, then negative,
else `None`. (Note `'available' in q` is a plain substring test.) -/
def extract_availability (q : List Char) : Option Bool :=
  if hasSub q "in stock" || hasSub q "available" || hasSub q "available now" then some true
  else if hasSub q "out of stock" || hasSub q "unavailable" then some false
  else none

/-- Embeds `_extract_sort_preference`. -/
def extract_sort_preference (q : List Char) : Option String :=
  if hasSub q "cheapest" || hasSub q "lowest price" then some "price_asc"
  else if hasSub q "most expensive" || hasSub q "highest price" then some "price_desc"
  else if hasSub q "highest rated" || hasSub q "best rated" then some "rating_desc"
  else if hasSub q "newest" || hasSub q "most recent" then some "year_desc"
  else if hasSub q "oldest" then some "year_asc"
  else none

/-- Embeds `(w)\s+(\d+)` at one position (for `top\s+(\d+)` / `first\s+(\d+)`). -/
def wordNumAt (w : String) (s : List Char) : Option Nat :=
  if isPrefixB w.toList s then
    match skipWs1 (s.drop w.length) with
    | some r =>
      match takeDigits r with
      | ([], _) => none
      | (ds, _) => some (digitsVal ds)
    | none => none
  else none

/-- Embeds `(\d+)\s+books?` at one position. -/
def numBooksAt (s : List Char) : Option Nat :=
  match takeDigits s with
  | ([], _) => none
  | (ds, r) =>
    match skipWs1 r with
    | some r2 => if isPrefixB "book".toList r2 then some (digitsVal ds) else none
    | none => none

/-- Embeds `_extract_limit`: `top N`, then `N books?`, then `first N`. -/
def extract_limit (q : List Char) : Option Nat :=
  match searchO (wordNumAt "top") q with
  | some n => some n
  | none =>
    match searchO numBooksAt q with
    | some n => some n
    | none => searchO (wordNumAt "first") q

/-- Embeds `EntityExtractor.extract` (the query is lowercased and stripped first;
`authors` is initialised to `[]` and never filled by any extractor). -/
def extract (query : String) : Entities :=
  let ql := py_strip (py_lower query.toList)
  { genres := extract_genres ql
    price_range := extract_price_range ql
    rating_range := extract_rating_range ql
    authors := []
    stores := extract_stores ql
    format := extract_format ql
    availability := extract_availability ql
    sort_by := extract_sort_preference ql
    limit := extract_limit ql }

/-! ### Query processor (`QueryProcessor`) -/

/-- A value of the `filters` dict: a `{'$gte','$lte'}` sub-dict, a plain
string (equality), a `{'$in': [...]}` list (set membership), or a boolean. -/
inductive FilterVal where
  | num (gte lte : Option ℚ)
  | str (s : String)
  | strIn (ss : List String)
  | boolv (b : Bool)
deriving DecidableEq

/-- Key lookup in a filters dict modelled as an association list in
insertion order. -/
def lookupF (k : String) : List (String × FilterVal) → Option FilterVal
  | [] => none
  | (k2, v) :: t => if k = k2 then some v else lookupF k t

/-- Embeds `stop_words` of `_extract_keywords`. -/
def stop_words : List String := [
  "a", "an", "the", "and", "or", "but", "in", "on", "at", "to", "for",
  "of", "with", "by", "from", "about", "as", "is", "are", "was", "were",
  "be", "been", "being", "have", "has", "had", "do", "does", "did",
  "will", "would", "should", "could", "may", "might", "can", "i", "you",
  "he", "she", "it", "we", "they", "me", "him", "her", "us", "them",
  "find", "search", "looking", "show", "get", "want", "need"]

/-- Python `\w` on ASCII text. -/
def isWordChar (c : Char) : Bool := c.isAlphanum || c == '_'

/-- Helper for `word_runs`: `acc` is the current in-progress run, reversed. -/
def word_runs_aux : List Char → List Char → List (List Char)
  | [], acc =>
    (match acc with
     | [] => []
     | _ => [acc.reverse])
  | c :: cs, acc =>
    if isWordChar c then word_runs_aux cs (c :: acc)
    else
      match acc with
      | [] => word_runs_aux cs []
      | _ => acc.reverse :: word_runs_aux cs []

/-- Embeds `re.findall(r'\b\w+\b', s)`: the maximal `\w` runs. -/
def word_runs (s : List Char) : List (List Char) := word_runs_aux s []

/-- Embeds `QueryProcessor._extract_keywords`: tokenize the lowercased query,
drop stop words and words of length ≤ 2. -/
def extract_keywords (query : String) : List String :=
  ((word_runs (py_lower query.toList)).filter
    (fun w => !(stop_words.contains (String.mk w)) && decide (2 < w.length))).map String.mk

/-- The `price` entry of `_build_filters` (`$gte` from `min`, `$lte` from `max`). -/
def price_entries (e : Entities) : List (String × FilterVal) :=
  match e.price_range with
  | none => []
  | some pr => if pr.min.isSome || pr.max.isSome then [("price", FilterVal.num pr.min pr.max)] else []

def rating_entries (e : Entities) : List (String × FilterVal) :=
  match e.rating_range with
  | none => []
  | some rr => if rr.min.isSome || rr.max.isSome then [("rating", FilterVal.num rr.min rr.max)] else []

/-- The `store_id` entry: equality for a single store, `$in` otherwise. -/
def store_entries (e : Entities) : List (String × FilterVal) :=
  match e.stores with
  | [] => []
  | [s] => [("store_id", FilterVal.str s)]
  | ss => [("store_id", FilterVal.strIn ss)]

def format_entries (e : Entities) : List (String × FilterVal) :=
  match e.format with
  | none => []
  | some f => [("format_type", FilterVal.str f)]

/-- The `availability` entry (`is not None` check, so `False` is kept). -/
def availability_entries (e : Entities) : List (String × FilterVal) :=
  match e.availability with
  | none => []
  | some b => [("availability", FilterVal.boolv b)]

def genre_entries (e : Entities) : List (String × FilterVal) :=
  match e.genres with
  | [] => []
  | [g] => [("genre", FilterVal.str g)]
  | gs => [("genre", FilterVal.strIn gs)]

/-- Embeds `QueryProcessor._build_filters`, keys in dict-insertion order. -/
def build_filters (e : Entities) : List (String × FilterVal) :=
  price_entries e ++ (rating_entries e ++ (store_entries e ++
    (format_entries e ++ (availability_entries e ++ genre_entries e))))

/-- Helper for `ws_split_count`: the flag records whether the previous
character was inside a field. -/
def ws_split_count_aux : List Char → Bool → Nat
  | [], _ => 0
  | c :: cs, inField =>
    if isPySpace c then ws_split_count_aux cs false
    else (if inField then 0 else 1) + ws_split_count_aux cs true

/-- Count of `str.split()` fields (maximal non-whitespace runs). -/
def ws_split_count (s : List Char) : Nat := ws_split_count_aux s false

structure QueryMetadata where
  query_length : Nat
  word_count : Nat
  has_price_constraint : Bool
  has_rating_constraint : Bool
  has_store_preference : Bool
  genre_count : Nat
  sort_preference : Option String
  result_limit : Option Nat
  requires_comparison : Bool
  requires_aggregation : Bool
deriving DecidableEq

/-- Embeds `QueryProcessor._extract_metadata`. -/
def extract_metadata (query : String) (intent : QueryIntent) (e : Entities) : QueryMetadata :=
  { query_length := query.length
    word_count := ws_split_count query.toList
    has_price_constraint := e.price_range.isSome
    has_rating_constraint := e.rating_range.isSome
    has_store_preference := decide (0 < e.stores.length)
    genre_count := e.genres.length
    sort_preference := e.sort_by
    result_limit := e.limit
    requires_comparison := decide (intent = QueryIntent.comparison)
    requires_aggregation := decide (intent = QueryIntent.analytics) }

structure ParsedQuery where
  original_query : String
  intent : QueryIntent
  confidence : ℚ
  entities : Entities
  keywords : List String
  filters : List (String × FilterVal)
  metadata : QueryMetadata
deriving DecidableEq

/-- Embeds `QueryProcessor.process`. -/
def process (query : String) : ParsedQuery :=
  let ic := classify query
  let entities := extract query
  { original_query := query
    intent := ic.1
    confidence := ic.2
    entities := entities
    keywords := extract_keywords query
    filters := build_filters entities
    metadata := extract_metadata query ic.1 entities }

/-! ### Query router (`QueryRouter`)

Handlers are partial maps from intents to functions; a handler that raises
an exception is modelled as one returning `Except.error` with the
exception's message (`str(e)`). -/

/-- The `str`-enum value of a `QueryIntent` member, as interpolated into
the no-handler error message. -/
def intent_value : QueryIntent → String
  | .search => "search"
  | .recommendation => "recommendation"
  | .comparison => "comparison"
  | .analytics => "analytics"
  | .filter => "filter"
  | .information => "information"
  | .unknown => "unknown"

/-- The result envelope of `QueryRouter.route`. -/
structure RouteResponse (α : Type) where
  success : Bool
  error : Option String
  parsed_query : ParsedQuery
  result : Option α
deriving DecidableEq

/-- Embeds `QueryRouter.route` (the Python code binds `parsed_query = process(query)`
once; `process` is pure, so it is inlined here). -/
def route {α : Type} (handlers : QueryIntent → Option (ParsedQuery → Except String α))
    (query : String) : RouteResponse α :=
  match handlers (process query).intent with
  | none =>
    { success := false
      error := some ("No handler registered for intent: " ++ intent_value (process query).intent)
      parsed_query := process query
      result := none }
  | some handler =>
    match handler (process query) with
    | Except.ok r =>
      { success := true, error := none, parsed_query := process query, result := some r }
    | Except.error e =>
      { success := false, error := some e, parsed_query := process query, result := none }

/-! ### Retriever (`QueryRetriever`) -/

/-- The metadata fields of an indexed book that the retriever reads. -/
structure Book where
  author : String
  genre : String
  price : ℚ
  rating : Option ℚ
  store_id : String
  store_name : String
deriving DecidableEq

/-- Python `str.replace(w, '')` for a non-empty `w`: remove every
non-overlapping, leftmost occurrence of `w` (for an empty `w` the text is
returned unchanged; the word list used below never contains one). -/
def removeAllB : List Char → List Char → List Char
  | _, [] => []
  | [], c :: cs => c :: cs
  | a :: wt, c :: cs =>
    if isPrefixB (a :: wt) (c :: cs) then removeAllB (a :: wt) ((c :: cs).drop (a :: wt).length)
    else c :: removeAllB (a :: wt) cs
termination_by _ s => s.length
decreasing_by
all_goals simp only [List.length_drop, List.length_cons]
all_goals omega

/-- Embeds `QueryRetriever._build_search_text`: keywords ++ genres, or the
lowercased original with the intent words removed. -/
def build_search_text (pq : ParsedQuery) : String :=
  let components := pq.keywords ++ pq.entities.genres
  if components.isEmpty then
    String.mk (py_strip (["find", "search", "looking for", "show me", "get", "want", "need"].foldl
      (fun t w => removeAllB w.toList t) (py_lower pq.original_query.toList)))
  else String.intercalate " " components

/-- One call to `BookIndexer.search_books`. -/
structure SearchCall where
  query : String
  n_results : Nat
  filters : List (String × FilterVal)
deriving DecidableEq

/-- The single `search_books` call of `QueryRetriever.retrieve_for_comparison`:
50 results, empty filters (`# Don't filter by store for comparisons`). -/
def retrieve_for_comparison_call (pq : ParsedQuery) : SearchCall :=
  { query := build_search_text pq, n_results := 50, filters := [] }

/-- First pass of `_diversify_results`: keep an item whose author or genre
is new, breaking once `limit` items are kept. The kept prefix `acc` itself
records the `seen_authors`/`seen_genres` sets. -/
def diversify_first_pass (limit : Nat) : List Book → List Book → List Book
  | [], acc => acc
  | r :: rs, acc =>
    if r.author ∈ acc.map Book.author ∧ r.genre ∈ acc.map Book.genre then
      diversify_first_pass limit rs acc
    else if limit ≤ acc.length + 1 then acc ++ [r]
    else diversify_first_pass limit rs (acc ++ [r])

/-- Second pass of `_diversify_results`: append unused results
(`result not in diversified`, i.e. value equality) until `limit`. -/
def diversify_backfill (limit : Nat) : List Book → List Book → List Book
  | [], acc => acc
  | r :: rs, acc =>
    if r ∈ acc then diversify_backfill limit rs acc
    else if limit ≤ acc.length + 1 then acc ++ [r]
    else diversify_backfill limit rs (acc ++ [r])

/-- Embeds `QueryRetriever._diversify_results`: first pass, then backfill when
short of `limit`, then `diversified[:limit]`. -/
def diversify_results (results : List Book) (limit : Nat) : List Book :=
  (if (diversify_first_pass limit results []).length < limit
   then diversify_backfill limit results (diversify_first_pass limit results [])
   else diversify_first_pass limit results []).take limit

/-- Python `min` over a nonempty list (`0` stands in for the empty case,
on which the Python code raises before reaching `min`). -/
def py_min_list (l : List ℚ) : ℚ :=
  match l with
  | [] => 0
  | x :: t => t.foldl min x

def py_max_list (l : List ℚ) : ℚ :=
  match l with
  | [] => 0
  | x :: t => t.foldl max x

structure PriceStats where
  average : ℚ
  min : ℚ
  max : ℚ
  median : ℚ
deriving DecidableEq

/-- Embeds `QueryRetriever._calculate_price_stats`: mean, min, max, and
`sorted(prices)[len(prices) // 2]` as median. -/
def calculate_price_stats (books : List Book) : PriceStats :=
  let prices := books.map Book.price
  { average := prices.sum / (prices.length : ℚ)
    min := py_min_list prices
    max := py_max_list prices
    median := (List.insertionSort (· ≤ ·) prices).getD (prices.length / 2) 0 }

/-- The ratings list both strategies build:
`[b['metadata'].get('rating') for b in books if b['metadata'].get('rating')]`.
The `if` tests Python truthiness, so it drops a missing rating and a
rating of `0` alike. -/
def truthy_ratings (books : List Book) : List ℚ :=
  books.filterMap fun b =>
    match b.rating with
    | some r => if r = 0 then none else some r
    | none => none

structure RatingStats where
  average : Option ℚ
  min : Option ℚ
  max : Option ℚ
  count : Option Nat
deriving DecidableEq

/-- Embeds `QueryRetriever._calculate_rating_stats` (the no-ratings shape has no
`count` key). -/
def calculate_rating_stats (books : List Book) : RatingStats :=
  match truthy_ratings books with
  | [] => { average := none, min := none, max := none, count := none }
  | x :: t =>
    { average := some ((x :: t).sum / ((x :: t).length : ℚ))
      min := some (t.foldl min x)
      max := some (t.foldl max x)
      count := some (x :: t).length }

/-- The per-store `avg_rating` computed inline by
`retrieve_for_comparison` (`sum(ratings)/len(ratings) if ratings else None`). -/
def comparison_avg_rating (books : List Book) : Option ℚ :=
  match truthy_ratings books with
  | [] => none
  | x :: t => some ((x :: t).sum / ((x :: t).length : ℚ))

/-! ### Helper lemmas about `_build_filters` -/

lemma price_entries_key (e : Entities) : ∀ p ∈ price_entries e, p.1 = "price" := by
  intro p hp
  unfold price_entries at hp
  split at hp
  · simp at hp
  · split at hp
    · simp at hp; rw [hp]
    · simp at hp

lemma rating_entries_key (e : Entities) : ∀ p ∈ rating_entries e, p.1 = "rating" := by
  intro p hp
  unfold rating_entries at hp
  split at hp
  · simp at hp
  · split at hp
    · simp at hp; rw [hp]
    · simp at hp

lemma store_entries_key (e : Entities) : ∀ p ∈ store_entries e, p.1 = "store_id" := by
  intro p hp
  unfold store_entries at hp
  split at hp
  · simp at hp
  · simp at hp; rw [hp]
  · simp at hp; rw [hp]

lemma format_entries_key (e : Entities) : ∀ p ∈ format_entries e, p.1 = "format_type" := by
  intro p hp
  unfold format_entries at hp
  split at hp
  · simp at hp
  · simp at hp; rw [hp]

lemma availability_entries_key (e : Entities) : ∀ p ∈ availability_entries e, p.1 = "availability" := by
  intro p hp
  unfold availability_entries at hp
  split at hp
  · simp at hp
  · simp at hp; rw [hp]

lemma genre_entries_key (e : Entities) : ∀ p ∈ genre_entries e, p.1 = "genre" := by
  intro p hp
  unfold genre_entries at hp
  split at hp
  · simp at hp
  · simp at hp; rw [hp]
  · simp at hp; rw [hp]

lemma build_filters_keys (e : Entities) :
    ∀ k ∈ (build_filters e).map Prod.fst,
      k ∈ ["price", "rating", "store_id", "format_type", "availability", "genre"] := by
  intro k hk
  simp only [build_filters, List.map_append, List.mem_append] at hk
  rcases hk with h | h | h | h | h | h <;> obtain ⟨p, hp, rfl⟩ := List.mem_map.1 h
  · rw [price_entries_key e p hp]; decide
  · rw [rating_entries_key e p hp]; decide
  · rw [store_entries_key e p hp]; decide
  · rw [format_entries_key e p hp]; decide
  · rw [availability_entries_key e p hp]; decide
  · rw [genre_entries_key e p hp]; decide

lemma lookupF_append_of_ne (k : String) (l1 l2 : List (String × FilterVal))
    (h : ∀ p ∈ l1, p.1 ≠ k) : lookupF k (l1 ++ l2) = lookupF k l2 := by
  induction l1 with
  | nil => rfl
  | cons p t ih =>
    obtain ⟨k2, v⟩ := p
    have hp : k2 ≠ k := h (k2, v) (List.mem_cons_self _ _)
    simp only [List.cons_append, lookupF]
    rw [if_neg (fun hk => hp hk.symm)]
    exact ih fun p2 h2 => h p2 (List.mem_cons_of_mem _ h2)

lemma lookupF_build_store (e : Entities) :
    lookupF "store_id" (build_filters e) =
      lookupF "store_id" (store_entries e ++
        (format_entries e ++ (availability_entries e ++ genre_entries e))) := by
  unfold build_filters
  rw [lookupF_append_of_ne _ _ _ (fun p hp => by rw [price_entries_key e p hp]; decide),
    lookupF_append_of_ne _ _ _ (fun p hp => by rw [rating_entries_key e p hp]; decide)]

lemma lookupF_build_genre (e : Entities) :
    lookupF "genre" (build_filters e) = lookupF "genre" (genre_entries e) := by
  unfold build_filters
  rw [lookupF_append_of_ne _ _ _ (fun p hp => by rw [price_entries_key e p hp]; decide),
    lookupF_append_of_ne _ _ _ (fun p hp => by rw [rating_entries_key e p hp]; decide),
    lookupF_append_of_ne _ _ _ (fun p hp => by rw [store_entries_key e p hp]; decide),
    lookupF_append_of_ne _ _ _ (fun p hp => by rw [format_entries_key e p hp]; decide),
    lookupF_append_of_ne _ _ _ (fun p hp => by rw [availability_entries_key e p hp]; decide)]

lemma store_lookup_single (e : Entities) (s : String) (hs : e.stores = [s]) :
    lookupF "store_id" (build_filters e) = some (FilterVal.str s) := by
  rw [lookupF_build_store]
  simp [store_entries, hs, lookupF]

lemma store_lookup_multi (e : Entities) (s1 s2 : String) (t : List String)
    (hs : e.stores = s1 :: s2 :: t) :
    lookupF "store_id" (build_filters e) = some (FilterVal.strIn (s1 :: s2 :: t)) := by
  rw [lookupF_build_store]
  simp [store_entries, hs, lookupF]

lemma genre_lookup_single (e : Entities) (g : String) (hg : e.genres = [g]) :
    lookupF "genre" (build_filters e) = some (FilterVal.str g) := by
  rw [lookupF_build_genre]
  simp [genre_entries, hg, lookupF]

lemma genre_lookup_multi (e : Entities) (g1 g2 : String) (t : List String)
    (hg : e.genres = g1 :: g2 :: t) :
    lookupF "genre" (build_filters e) = some (FilterVal.strIn (g1 :: g2 :: t)) := by
  rw [lookupF_build_genre]
  simp [genre_entries, hg, lookupF]

/-! ### Claim theorems -/

/-- C1 counterexample: for the input string `"Find science fiction books
under $20"`, `process` does not return intent `Search`: the Filter intent
scores 0.8 (keyword `under` plus the `(under|below|less than)\s+\$?\d+`
pattern), beating Search's 0.3 (keyword `find` only), so the intent is
`Filter`. -/
theorem process_scenario_intent_cex :
    (process "Find science fiction books under $20").intent = QueryIntent.filter ∧
    QueryIntent.filter ≠ QueryIntent.search := by
  constructor
  · with_unfolding_all decide
  · decide

/-- C1, amended: `process("Find science fiction books under $20")` returns
intent `Filter` (not `Search`), `entities.genres = ["science fiction"]`,
`entities.price_range = {max: 20.0}`, and filters with genre equal to
`"science fiction"` and a `$lte 20.0` price bound. -/
theorem process_scenario_amended :
    (process "Find science fiction books under $20").intent = QueryIntent.filter ∧
    (process "Find science fiction books under $20").entities.genres = ["science fiction"] ∧
    (process "Find science fiction books under $20").entities.price_range = some ⟨none, some 20⟩ ∧
    lookupF "genre" (process "Find science fiction books under $20").filters =
      some (FilterVal.str "science fiction") ∧
    lookupF "price" (process "Find science fiction books under $20").filters =
      some (FilterVal.num none (some 20)) := by
  refine ⟨?_, ?_, ?_, ?_, ?_⟩ <;> with_unfolding_all decide

/-- C3: for every `ParsedQuery` whose filters contain a `store_id`
constraint, the Comparison strategy's single `search_books` call carries
an empty filter dict (hence no store filter) and asks for 50 candidates. -/
theorem comparison_ignores_store_filter (pq : ParsedQuery)
    (_h : (lookupF "store_id" pq.filters).isSome = true) :
    (retrieve_for_comparison_call pq).filters = [] ∧
    lookupF "store_id" (retrieve_for_comparison_call pq).filters = none ∧
    (retrieve_for_comparison_call pq).n_results = 50 :=
  ⟨rfl, rfl, rfl⟩

theorem comparison_ignores_store_filter_witness :
    (retrieve_for_comparison_call (process "store a")).filters = [] ∧
    lookupF "store_id" (retrieve_for_comparison_call (process "store a")).filters = none ∧
    (retrieve_for_comparison_call (process "store a")).n_results = 50 :=
  comparison_ignores_store_filter (process "store a") (by with_unfolding_all decide)

/-- C4: `route` always returns an envelope carrying the parsed query; with
no registered handler for the parsed intent it returns a failure envelope
whose error names the intent, and a handler error (modelled as
`Except.error`) is caught and converted into a failure envelope carrying
the error's message — it never propagates. -/
theorem route_error_envelope {α : Type}
    (handlers : QueryIntent → Option (ParsedQuery → Except String α)) (q : String) :
    (route handlers q).parsed_query = process q ∧
    (handlers (process q).intent = none →
      route handlers q =
        { success := false
          error := some ("No handler registered for intent: " ++ intent_value (process q).intent)
          parsed_query := process q
          result := none }) ∧
    (∀ h e, handlers (process q).intent = some h → h (process q) = Except.error e →
      route handlers q =
        { success := false, error := some e, parsed_query := process q, result := none }) := by
  refine ⟨?_, ?_, ?_⟩
  · unfold route
    split
    · rfl
    · split <;> rfl
  · intro hnone
    unfold route
    rw [hnone]
  · intro h e hsome herr
    unfold route
    rw [hsome]
    dsimp only
    rw [herr]

theorem route_error_envelope_witness :
    route (fun _ => (none : Option (ParsedQuery → Except String Nat))) "zzz" =
      { success := false
        error := some "No handler registered for intent: unknown"
        parsed_query := process "zzz"
        result := none } ∧
    route (fun _ => some fun _ => (Except.error "boom" : Except String Nat)) "zzz" =
      { success := false, error := some "boom", parsed_query := process "zzz", result := none } := by
  constructor
  · have := (route_error_envelope (fun _ => (none : Option (ParsedQuery → Except String Nat)))
      "zzz").2.1 rfl
    rw [this]
    with_unfolding_all decide
  · exact (route_error_envelope _ "zzz").2.2 _ "boom" rfl rfl

/-- C5: whenever the maximum per-intent score is strictly below 0.3,
`classify` returns intent `Unknown` together with that sub-threshold
maximum score as the confidence. -/
theorem classify_unknown_fallback (q : String) (h : max_intent_score q < 3 / 10) :
    classify q = (QueryIntent.unknown, max_intent_score q) := by
  unfold classify
  rw [if_pos h]

theorem classify_unknown_fallback_witness :
    max_intent_score "zzz" < 3 / 10 ∧
    classify "zzz" = (QueryIntent.unknown, max_intent_score "zzz") :=
  ⟨by with_unfolding_all decide, classify_unknown_fallback "zzz" (by with_unfolding_all decide)⟩

/-- C6: every key of the filters dict built by `process` belongs to the
fixed whitelist `{price, rating, store_id, format_type, availability,
genre}`. -/
theorem filters_whitelist (q : String) (k : String)
    (h : k ∈ (process q).filters.map Prod.fst) :
    k ∈ ["price", "rating", "store_id", "format_type", "availability", "genre"] := by
  have hf : (process q).filters = build_filters (extract q) := rfl
  rw [hf] at h
  exact build_filters_keys (extract q) k h

theorem filters_whitelist_witness :
    "price" ∈ (process "books under $5").filters.map Prod.fst ∧
    "price" ∈ ["price", "rating", "store_id", "format_type", "availability", "genre"] :=
  ⟨by with_unfolding_all decide,
   filters_whitelist "books under $5" "price" (by with_unfolding_all decide)⟩

/-- C7 (code bug): the extractor returns `availability = True` for a query
containing `unavailable` and no other availability phrase, because
`'available' in query` is a substring test and `"available"` is a
substring of `"unavailable"`, so the affirmative branch fires first; the
code's own negative phrase list (`'unavailable'` → `False`) is
unreachable for that word. -/
theorem extract_availability_unavailable_bug :
    (extract "Show unavailable books").availability = some true ∧
    some true ≠ (some false : Option Bool) := by
  constructor
  · with_unfolding_all decide
  · decide

/-- C8 counterexample: the query `"bookstore a"` mentions exactly one
store, but both store regexes match it, the extracted list is
`["store_a", "store_a"]`, and the built filter is a set-membership
(`$in`) filter rather than the equality filter the claim requires. -/
theorem store_filter_bookstore_cex :
    lookupF "store_id" (process "bookstore a").filters =
      some (FilterVal.strIn ["store_a", "store_a"]) ∧
    (∀ s : String, FilterVal.strIn ["store_a", "store_a"] ≠ FilterVal.str s) := by
  constructor
  · with_unfolding_all decide
  · intro s _h
    cases _h

/-- C8, amended: the `store_id` filter is an equality exactly when the
extracted stores list has one element (e.g. `"store a"`), and a
set-membership filter when it has two or more entries — which happens for
`"bookstore a"`, since that query matches both store patterns and yields
the duplicate list `["store_a", "store_a"]`; likewise for genres (whose
extracted list is duplicate-free, so a single mentioned genre does give
an equality filter). -/
theorem store_genre_filter_cardinality (q : String) :
    ((process q).entities.stores.length = 1 →
      lookupF "store_id" (process q).filters =
        some (FilterVal.str ((process q).entities.stores.headD ""))) ∧
    (2 ≤ (process q).entities.stores.length →
      lookupF "store_id" (process q).filters =
        some (FilterVal.strIn (process q).entities.stores)) ∧
    ((process q).entities.genres.length = 1 →
      lookupF "genre" (process q).filters =
        some (FilterVal.str ((process q).entities.genres.headD ""))) ∧
    (2 ≤ (process q).entities.genres.length →
      lookupF "genre" (process q).filters =
        some (FilterVal.strIn (process q).entities.genres)) := by
  have hf : (process q).filters = build_filters (extract q) := rfl
  have he : (process q).entities = extract q := rfl
  rw [hf, he]
  refine ⟨?_, ?_, ?_, ?_⟩
  · intro h1
    match hs : (extract q).stores, h1 with
    | [s], _ => rw [store_lookup_single (extract q) s hs]; rfl
  · intro h2
    match hs : (extract q).stores, h2 with
    | s1 :: s2 :: t, _ => rw [store_lookup_multi (extract q) s1 s2 t hs]
  · intro h1
    match hg : (extract q).genres, h1 with
    | [g], _ => rw [genre_lookup_single (extract q) g hg]; rfl
  · intro h2
    match hg : (extract q).genres, h2 with
    | g1 :: g2 :: t, _ => rw [genre_lookup_multi (extract q) g1 g2 t hg]

theorem store_genre_filter_cardinality_witness :
    lookupF "store_id" (process "store a").filters = some (FilterVal.str "store_a") ∧
    lookupF "genre" (process "fantasy books").filters = some (FilterVal.str "fantasy") := by
  constructor
  · have := (store_genre_filter_cardinality "store a").1 (by with_unfolding_all decide)
    rw [this]
    with_unfolding_all decide
  · have := (store_genre_filter_cardinality "fantasy books").2.2.1 (by with_unfolding_all decide)
    rw [this]
    with_unfolding_all decide
/-- C9: for every non-empty book list, the Analytics price statistics
report as median the element at index `len // 2` of the ascending-sorted
price list (the lower-middle element on even counts). -/
theorem calculate_price_stats_median (books : List Book) (_hne : books ≠ [])
    (l : List ℚ) (hp : (books.map Book.price).Perm l) (hs : l.Sorted (· ≤ ·)) :
    (calculate_price_stats books).median = l.getD (books.length / 2) 0 := by
  have hsorted : List.insertionSort (· ≤ ·) (books.map Book.price) = l :=
    List.eq_of_perm_of_sorted ((List.perm_insertionSort _ _).trans hp)
      (List.sorted_insertionSort _ _) hs
  show (List.insertionSort (· ≤ ·) (books.map Book.price)).getD
      ((books.map Book.price).length / 2) 0 = l.getD (books.length / 2) 0
  rw [hsorted, List.length_map]

theorem calculate_price_stats_median_witness :
    (calculate_price_stats
        [⟨"a", "g", 3, none, "s", "n"⟩, ⟨"b", "h", 1, none, "s", "n"⟩,
         ⟨"c", "i", 2, none, "s", "n"⟩, ⟨"d", "j", 4, none, "s", "n"⟩]).median =
      ([1, 2, 3, 4] : List ℚ).getD
        (([⟨"a", "g", 3, none, "s", "n"⟩, ⟨"b", "h", 1, none, "s", "n"⟩,
           ⟨"c", "i", 2, none, "s", "n"⟩, ⟨"d", "j", 4, none, "s", "n"⟩] : List Book).length / 2) 0 :=
  calculate_price_stats_median _ (by with_unfolding_all decide) [1, 2, 3, 4]
    (by with_unfolding_all decide) (by with_unfolding_all decide)

/-- C10 counterexample: with rating list `[0, 4]` (both non-null), the
Analytics rating statistics average only `[4]` — a rating of `0` fails the
Python truthiness test `if b['metadata'].get('rating')` — so the mean is
`4` and the count is `1`, not the non-null mean `(0 + 4) / 2 = 2` over
count `2` that the claim requires; the Comparison strategy's inline
`avg_rating` filters identically. -/
theorem rating_stats_zero_cex :
    (calculate_rating_stats
        [⟨"a", "g", 1, some 0, "s", "n"⟩, ⟨"b", "h", 1, some 4, "s", "n"⟩]).average = some 4 ∧
    (calculate_rating_stats
        [⟨"a", "g", 1, some 0, "s", "n"⟩, ⟨"b", "h", 1, some 4, "s", "n"⟩]).average ≠
      some (((0 : ℚ) + 4) / 2) ∧
    (calculate_rating_stats
        [⟨"a", "g", 1, some 0, "s", "n"⟩, ⟨"b", "h", 1, some 4, "s", "n"⟩]).count = some 1 ∧
    comparison_avg_rating
        [⟨"a", "g", 1, some 0, "s", "n"⟩, ⟨"b", "h", 1, some 4, "s", "n"⟩] = some 4 := by
  refine ⟨?_, ?_, ?_, ?_⟩ <;> with_unfolding_all decide

/-- C10, amended: in both the Comparison and the Analytics strategies the
rating statistics are computed over exactly the items whose rating is
non-null and non-zero (Python truthiness), and the null-stats shape (resp.
`None` average) is returned exactly when no item has such a rating: the
selected ratings are `filter (≠ 0) (filterMap rating books)`, and when
that list is `x :: t` the stats are mean/min/max/count over it. -/
theorem rating_stats_truthiness (books : List Book) :
    truthy_ratings books =
      (books.filterMap Book.rating).filter (fun r => decide (¬ r = 0)) ∧
    (truthy_ratings books = [] →
      calculate_rating_stats books = ⟨none, none, none, none⟩ ∧
      comparison_avg_rating books = none) ∧
    (∀ x t, truthy_ratings books = x :: t →
      calculate_rating_stats books =
        ⟨some ((x :: t).sum / ((x :: t).length : ℚ)), some (t.foldl min x),
         some (t.foldl max x), some (x :: t).length⟩ ∧
      comparison_avg_rating books = some ((x :: t).sum / ((x :: t).length : ℚ))) := by
  refine ⟨?_, ?_, ?_⟩
  · induction books with
    | nil => rfl
    | cons b bs ih =>
      cases hb : b.rating with
      | none => simpa [truthy_ratings, List.filterMap_cons, hb] using ih
      | some r =>
        by_cases hr : r = 0
        · simpa [truthy_ratings, List.filterMap_cons, List.filter_cons, hb, hr] using ih
        · simpa [truthy_ratings, List.filterMap_cons, List.filter_cons, hb, hr] using ih
  · intro h
    constructor
    · unfold calculate_rating_stats
      rw [h]
    · unfold comparison_avg_rating
      rw [h]
  · intro x t h
    constructor
    · unfold calculate_rating_stats
      rw [h]
    · unfold comparison_avg_rating
      rw [h]

theorem rating_stats_truthiness_witness :
    truthy_ratings [⟨"a", "g", 1, some 0, "s", "n"⟩, ⟨"b", "h", 1, some 4, "s", "n"⟩] = [4] ∧
    calculate_rating_stats [⟨"a", "g", 1, some 0, "s", "n"⟩, ⟨"b", "h", 1, some 4, "s", "n"⟩] =
      ⟨some (([4] : List ℚ).sum / (([4] : List ℚ).length : ℚ)), some (([] : List ℚ).foldl min 4),
       some (([] : List ℚ).foldl max 4), some ([4] : List ℚ).length⟩ := by
  constructor
  · with_unfolding_all decide
  · exact ((rating_stats_truthiness _).2.2 4 [] (by with_unfolding_all decide)).1
/-! ### Helper lemmas about `_diversify_results` -/

/-- Two books are "diverse" when they do not share both author and genre. -/
def diverse_pair (x y : Book) : Prop := ¬(x.author = y.author ∧ x.genre = y.genre)

lemma take_append_of_le {α : Type} (n : Nat) (l1 l2 : List α) (h : l1.length ≤ n) :
    (l1 ++ l2).take n = l1 ++ l2.take (n - l1.length) := by
  induction l1 generalizing n with
  | nil => simp
  | cons a t ih =>
    cases n with
    | zero => simp at h
    | succ m =>
      simp only [List.cons_append, List.take_succ_cons, List.length_cons]
      rw [ih m (by simpa using h)]
      simp [Nat.succ_sub_succ]

/-- Unfolding equation of `diversify_first_pass` at a cons cell. -/
lemma first_pass_cons (limit : Nat) (r : Book) (rs acc : List Book) :
    diversify_first_pass limit (r :: rs) acc =
      if r.author ∈ acc.map Book.author ∧ r.genre ∈ acc.map Book.genre
      then diversify_first_pass limit rs acc
      else if limit ≤ acc.length + 1 then acc ++ [r]
      else diversify_first_pass limit rs (acc ++ [r]) := rfl

/-- Unfolding equation of `diversify_backfill` at a cons cell. -/
lemma backfill_cons (limit : Nat) (r : Book) (rs acc : List Book) :
    diversify_backfill limit (r :: rs) acc =
      if r ∈ acc then diversify_backfill limit rs acc
      else if limit ≤ acc.length + 1 then acc ++ [r]
      else diversify_backfill limit rs (acc ++ [r]) := rfl

/-- The first pass only appends to the kept prefix. -/
lemma first_pass_extends (limit : Nat) (rs acc : List Book) :
    ∃ t, diversify_first_pass limit rs acc = acc ++ t := by
  induction rs generalizing acc with
  | nil => exact ⟨[], by simp [diversify_first_pass]⟩
  | cons r rs ih =>
    unfold diversify_first_pass
    split
    · exact ih acc
    · split
      · exact ⟨[r], rfl⟩
      · obtain ⟨t, ht⟩ := ih (acc ++ [r])
        exact ⟨r :: t, by rw [ht]; simp⟩

lemma backfill_extends (limit : Nat) (rs acc : List Book) :
    ∃ t, diversify_backfill limit rs acc = acc ++ t := by
  induction rs generalizing acc with
  | nil => exact ⟨[], by simp [diversify_backfill]⟩
  | cons r rs ih =>
    unfold diversify_backfill
    split
    · exact ih acc
    · split
      · exact ⟨[r], rfl⟩
      · obtain ⟨t, ht⟩ := ih (acc ++ [r])
        exact ⟨r :: t, by rw [ht]; simp⟩

/-- If the first pass ended below `limit`, it scanned every candidate: an
unused candidate was rejected, so its author and genre are both already
among the kept items. -/
lemma first_pass_mem (limit : Nat) (rs : List Book) : ∀ acc : List Book,
    (diversify_first_pass limit rs acc).length < limit →
    ∀ c ∈ rs, c ∈ diversify_first_pass limit rs acc ∨
      (c.author ∈ (diversify_first_pass limit rs acc).map Book.author ∧
       c.genre ∈ (diversify_first_pass limit rs acc).map Book.genre) := by
  induction rs with
  | nil =>
    intro acc _ c hc
    cases hc
  | cons r rs ih =>
    intro acc h c hc
    by_cases h1 : r.author ∈ acc.map Book.author ∧ r.genre ∈ acc.map Book.genre
    · have heq : diversify_first_pass limit (r :: rs) acc = diversify_first_pass limit rs acc := by
        rw [first_pass_cons, if_pos h1]
      rw [heq] at h ⊢
      rcases List.mem_cons.1 hc with rfl | hc2
      · obtain ⟨t, ht⟩ := first_pass_extends limit rs acc
        right
        rw [ht, List.map_append, List.map_append]
        exact ⟨List.mem_append_left _ h1.1, List.mem_append_left _ h1.2⟩
      · exact ih acc h c hc2
    · by_cases h2 : limit ≤ acc.length + 1
      · have heq : diversify_first_pass limit (r :: rs) acc = acc ++ [r] := by
          rw [first_pass_cons, if_neg h1, if_pos h2]
        rw [heq] at h
        simp only [List.length_append, List.length_cons, List.length_nil] at h
        omega
      · have heq : diversify_first_pass limit (r :: rs) acc =
            diversify_first_pass limit rs (acc ++ [r]) := by
          rw [first_pass_cons, if_neg h1, if_neg h2]
        rw [heq] at h ⊢
        rcases List.mem_cons.1 hc with rfl | hc2
        · obtain ⟨t, ht⟩ := first_pass_extends limit rs (acc ++ [c])
          left
          rw [ht]
          simp
        · exact ih (acc ++ [r]) h c hc2

/-- The first pass keeps a pairwise-diverse list: an item is admitted only
when its author or genre is new, so it cannot clash with any kept item. -/
lemma first_pass_pairwise (limit : Nat) (rs : List Book) : ∀ acc : List Book,
    acc.Pairwise diverse_pair →
    (diversify_first_pass limit rs acc).Pairwise diverse_pair := by
  induction rs with
  | nil =>
    intro acc hacc
    simpa [diversify_first_pass] using hacc
  | cons r rs ih =>
    intro acc hacc
    rw [first_pass_cons]
    split
    · exact ih acc hacc
    · rename_i h1
      have happ : (acc ++ [r]).Pairwise diverse_pair := by
        rw [List.pairwise_append]
        refine ⟨hacc, List.pairwise_singleton _ _, ?_⟩
        intro x hx y hy
        have hyr : y = r := by simpa using hy
        subst hyr
        intro hcl
        exact h1 ⟨List.mem_map.2 ⟨x, hx, hcl.1⟩, List.mem_map.2 ⟨x, hx, hcl.2⟩⟩
      split
      · exact happ
      · exact ih (acc ++ [r]) happ

/-- The kept items all come from `acc ++ rs`. -/
lemma first_pass_sublist (limit : Nat) (rs : List Book) : ∀ acc : List Book,
    List.Sublist (diversify_first_pass limit rs acc) (acc ++ rs) := by
  induction rs with
  | nil =>
    intro acc
    simp [diversify_first_pass]
  | cons r rs ih =>
    intro acc
    rw [first_pass_cons]
    split
    · exact (ih acc).trans (List.Sublist.append_left (List.sublist_cons_self r rs) acc)
    · split
      · exact List.Sublist.append_left (by simp) acc
      · have := ih (acc ++ [r])
        simpa [List.append_assoc] using this

/-- The backfill pass reaches `limit` items whenever enough candidates
outside the accumulator remain (duplicate-free candidate list). -/
lemma backfill_length (limit : Nat) (rs : List Book) : ∀ acc : List Book, rs.Nodup →
    limit ≤ acc.length + (rs.filter (fun r => decide (r ∉ acc))).length →
    limit ≤ (diversify_backfill limit rs acc).length := by
  induction rs with
  | nil =>
    intro acc _ h
    simpa [diversify_backfill] using h
  | cons r rs ih =>
    intro acc hnd h
    rw [backfill_cons]
    split
    · rename_i hmem
      have hfeq : List.filter (fun x => decide (x ∉ acc)) (r :: rs) =
          List.filter (fun x => decide (x ∉ acc)) rs := by
        simp [List.filter_cons, hmem]
      rw [hfeq] at h
      exact ih acc (List.nodup_cons.1 hnd).2 h
    · rename_i hmem
      split
      · rename_i hlim
        simpa using hlim
      · rename_i hlim
        apply ih (acc ++ [r]) (List.nodup_cons.1 hnd).2
        have hfc : List.filter (fun x => decide (x ∉ acc ++ [r])) rs =
            List.filter (fun x => decide (x ∉ acc)) rs := by
          apply List.filter_congr
          intro x hx
          have hxr : x ≠ r := fun hxr => (List.nodup_cons.1 hnd).1 (hxr ▸ hx)
          simp [List.mem_append, hxr]
        have hflen : (List.filter (fun x => decide (x ∉ acc)) (r :: rs)).length =
            (List.filter (fun x => decide (x ∉ acc)) rs).length + 1 := by
          simp [List.filter_cons, hmem]
        rw [hfc]
        simp only [List.length_append, List.length_cons, List.length_nil]
        omega

/-- Exact-`limit` output size on duplicate-free candidate lists. -/
lemma diversify_length (results : List Book) (limit : Nat) (hnd : results.Nodup)
    (hlen : limit ≤ results.length) :
    (diversify_results results limit).length = limit := by
  unfold diversify_results
  rw [List.length_take]
  have h2 : limit ≤ (if (diversify_first_pass limit results []).length < limit
      then diversify_backfill limit results (diversify_first_pass limit results [])
      else diversify_first_pass limit results []).length := by
    split
    · rename_i hlt
      apply backfill_length limit results _ hnd
      have hsub : List.Sublist (diversify_first_pass limit results []) results := by
        simpa using first_pass_sublist limit results []
      have hdn : (diversify_first_pass limit results []).Nodup := hsub.nodup hnd
      have hle : (results.filter
            (fun x => decide (x ∈ diversify_first_pass limit results []))).length ≤
          (diversify_first_pass limit results []).length := by
        apply List.Subperm.length_le
        apply List.subperm_of_subset
        · exact hnd.filter _
        · intro x hx
          simpa using (List.mem_filter.1 hx).2
      have hsplit := List.length_eq_length_filter_add
        (l := results) (fun x => decide (x ∈ diversify_first_pass limit results []))
      have hnot : (List.filter (fun x => !decide (x ∈ diversify_first_pass limit results []))
            results) =
          List.filter (fun x => decide (x ∉ diversify_first_pass limit results [])) results := by
        simp
      rw [hnot] at hsplit
      omega
    · rename_i hge
      omega
  omega

/-- C2 counterexample: a candidate list of size `N = limit = 2` holding the
same book twice makes `_diversify_results` return a single item: the
duplicate is rejected by the first pass (author and genre already kept)
and by the backfill membership test `result not in diversified`, so the
output has fewer than `limit` items. -/
theorem diversify_results_dup_cex :
    (diversify_results [⟨"a", "g", 1, none, "s", "n"⟩, ⟨"a", "g", 1, none, "s", "n"⟩] 2).length
        = 1 ∧
    (diversify_results [⟨"a", "g", 1, none, "s", "n"⟩, ⟨"a", "g", 1, none, "s", "n"⟩] 2).length
        ≠ 2 := by
  constructor
  · with_unfolding_all decide
  · with_unfolding_all decide

/-- C2, amended: for every duplicate-free candidate list of size
`N ≥ limit`, the diversification returns exactly `limit` items, and no two
returned items share both author and genre as long as some unused
candidate with a not-yet-kept author or not-yet-kept genre remains
(backfill with non-diverse candidates happens only after the whole
candidate list was scanned, at which point every unused candidate's author
and genre are already among the returned ones). With duplicates, the
membership test of the backfill pass can leave the result short of
`limit`. -/
theorem diversify_results_amended (results : List Book) (limit : Nat)
    (hnd : results.Nodup) (hlen : limit ≤ results.length) :
    (diversify_results results limit).length = limit ∧
    ((∃ c ∈ results, c ∉ diversify_results results limit ∧
        (c.author ∉ (diversify_results results limit).map Book.author ∨
         c.genre ∉ (diversify_results results limit).map Book.genre)) →
      (diversify_results results limit).Pairwise diverse_pair) := by
  refine ⟨diversify_length results limit hnd hlen, ?_⟩
  intro hex
  unfold diversify_results at hex ⊢
  by_cases hcase : (diversify_first_pass limit results []).length < limit
  · exfalso
    rw [if_pos hcase] at hex
    obtain ⟨c, hcr, hcout, hdisj⟩ := hex
    obtain ⟨t, ht⟩ := backfill_extends limit results (diversify_first_pass limit results [])
    have hout : (diversify_backfill limit results (diversify_first_pass limit results [])).take
        limit = diversify_first_pass limit results [] ++
          t.take (limit - (diversify_first_pass limit results []).length) := by
      rw [ht]
      exact take_append_of_le limit _ t (Nat.le_of_lt hcase)
    rcases first_pass_mem limit results [] hcase c hcr with hcd | ⟨hca, hcg⟩
    · apply hcout
      rw [hout]
      exact List.mem_append_left _ hcd
    · rcases hdisj with hna | hng
      · apply hna
        rw [hout, List.map_append]
        exact List.mem_append_left _ hca
      · apply hng
        rw [hout, List.map_append]
        exact List.mem_append_left _ hcg
  · rw [if_neg hcase]
    exact List.Pairwise.sublist (List.take_sublist _ _)
      (first_pass_pairwise limit results [] List.Pairwise.nil)

theorem diversify_results_amended_witness :
    (diversify_results
        [⟨"a1", "g1", 1, none, "s", "n"⟩, ⟨"a1", "g1", 2, none, "s", "n"⟩,
         ⟨"a2", "g2", 3, none, "s", "n"⟩] 2).length = 2 :=
  (diversify_results_amended
    [⟨"a1", "g1", 1, none, "s", "n"⟩, ⟨"a1", "g1", 2, none, "s", "n"⟩,
     ⟨"a2", "g2", 3, none, "s", "n"⟩] 2
    (by with_unfolding_all decide) (by with_unfolding_all decide)).1
